import Mathlib

/-!
Verification of the GitLab container registry cleaner.

This file is a shallow embedding, in Lean 4, of the tag-cleanup pipeline
implemented in `src/cleaner.ts` (class `GitLabContainerRepositoryCleaner`)
and of the CLI entry points in `main.ts`, together with theorems settling
the specification claims about them.

Embedding conventions:
- The GitLab REST API is an external collaborator.  Each endpoint used by the
  code is modelled as an oracle function passed in as a parameter:
  `showRepository : Nat → Option Repository` (a rejected promise, e.g. a 404,
  is `none`), `listPage : Nat → List CondensedTag` (one page of the paginated
  tag listing), `showTag : String → Option DetailedTag` (tag detail fetch;
  404 or any other error is `none`, both are skipped by the code), and
  `removeTag : Nat → Nat → String → Except String Unit` (tag deletion, which
  can reject).
- ISO-8601 `created_at` strings are compared in the code only through
  `new Date(s).getTime()`; they are embedded directly as epoch milliseconds
  (`Int`).
- JavaScript regular expressions appear in the code only through
  `new RegExp(str).test(name)`; a regex is therefore embedded as its test
  function `String → Bool`.  The two default regexes have known semantics:
  `".*"` matches every string and `"^$"` matches exactly the empty string.
- The `semver` library is an external dependency; `semver.coerce` is
  embedded as an oracle `coerce : String → Option Version` and
  `semver.rcompare` on coerced versions (which never carry a prerelease) is
  exactly the reversed lexicographic order on (major, minor, patch).
- `Array.prototype.sort` is guaranteed stable with a consistent comparator;
  it is embedded as `List.insertionSort` (a stable sort) over the relation
  "comparator(a, b) ≤ 0", which produces the same list.
- `String.prototype.localeCompare` is embedded as code-point lexicographic
  comparison of the two strings.
- Floating point division `(now - created) / 86400000 > olderThanDays` is
  embedded by the equivalent cross-multiplied integer comparison.
-/

/-- Epoch-millisecond creation timestamps and tag ages use this many
milliseconds per day: `1000 * 3600 * 24` from the source. -/
def MS_PER_DAY : Int := 86400000

/-- `Math.ceil (a / b)` on nonnegative integers, as used by the source to
compute chunk sizes and page counts.  For `b = 0` the JS expression is not a
number (the source never reaches that case with a nonempty workload except
for a zero concurrency, where the JS loop does not terminate; theorems that
depend on batch structure assume a positive concurrency). -/
def ceilDiv (a b : Nat) : Nat := (a + b - 1) / b

/-- Fuel-indexed worker for `chunkList`; the fuel starts at the length of the
list, which bounds the number of loop iterations. -/
def chunkListAux (k : Nat) : Nat → List α → List (List α)
  | 0, _ => []
  | _ + 1, [] => []
  | fuel + 1, x :: xs =>
    if k = 0 then [x :: xs]
    else ((x :: xs).take k) :: chunkListAux k fuel ((x :: xs).drop k)

/-- Embedding of the chunking loop
`for (let i = 0; i < l.length; i += k) chunks.push(l.slice(i, i + k))`
used by every concurrent stage of the cleaner.  For `k = 0` and a nonempty
list the detail-fetch and delete stages reach this only via
`ceilDiv len concurrency = 0`, impossible for a nonempty list and positive
concurrency; the repository and page batching loops use `k = concurrency`
directly and do not terminate in JS when `k = 0`, so theorems about them
assume `0 < concurrency`. -/
def chunkList (k : Nat) (l : List α) : List (List α) :=
  chunkListAux k l.length l

/-- Repository data used by the cleaner: `id`, `project_id`, `path` and the
`tags_count` reported with `tagsCount: true` (its `?? 0` default folded in). -/
structure Repository where
  id : Nat
  project_id : Nat
  path : String
  tags_count : Nat
deriving DecidableEq, Repr

/-- `CondensedRegistryRepositoryTagSchema`: what the tag list endpoint
returns; no creation timestamp. -/
structure CondensedTag where
  name : String
  path : String
  location : String
deriving DecidableEq, Repr

/-- `RegistryRepositoryTagSchema` restricted to the fields the cleaner reads:
the condensed fields plus `created_at` as epoch milliseconds. -/
structure DetailedTag where
  name : String
  path : String
  location : String
  created_at : Int
deriving DecidableEq, Repr

/-- A coerced semantic version: `semver.coerce` always yields a plain
`major.minor.patch` version with no prerelease. -/
structure Version where
  major : Nat
  minor : Nat
  patch : Nat
deriving DecidableEq, Repr

/-- `semver.compare` on coerced versions: lexicographic on
(major, minor, patch); `versionLe a b` means `a` is not newer than `b`. -/
def versionLe (a b : Version) : Bool :=
  decide (a.major < b.major) ||
    (decide (a.major = b.major) &&
      (decide (a.minor < b.minor) ||
        (decide (a.minor = b.minor) && decide (a.patch ≤ b.patch))))

/-- Code-point lexicographic comparison of char lists; worker for
`localeLe`. -/
def strLeAux : List Char → List Char → Bool
  | [], _ => true
  | _ :: _, [] => false
  | c :: cs, d :: ds => if c < d then true else if d < c then false else strLeAux cs ds

/-- Embedding of `a.localeCompare b ≤ 0` as code-point lexicographic
comparison. -/
def localeLe (a b : String) : Bool := strLeAux a.data b.data

/-- `DEFAULT_KEEP_REGEX` from the source. -/
def DEFAULT_KEEP_REGEX : String := ".*"

/-- `DEFAULT_DELETE_REGEX` from the source. -/
def DEFAULT_DELETE_REGEX : String := "^$"

/-- `DEFAULT_CONCURRENCY` from the source. -/
def DEFAULT_CONCURRENCY : Nat := 20

/-- `DEFAULT_OLDER_THAN_DAYS` from the source. -/
def DEFAULT_OLDER_THAN_DAYS : Int := 90

/-- `DEFAULT_KEEP_MOST_RECENT` from the source. -/
def DEFAULT_KEEP_MOST_RECENT : Nat := 0

/-- The test function of the JS regex `".*"` (the default keep regex): an
unanchored search for zero or more characters succeeds on every string. -/
def regexTestMatchAll : String → Bool := fun _ => true

/-- The test function of the JS regex `"^$"` (the default delete regex,
without multiline flag): start directly followed by end, so it matches
exactly the empty string. -/
def regexTestEmptyOnly : String → Bool := fun s => s == ""

/-- Embedding of `filterTagsRegex`: drop the tags whose name matches the
keep regex, then keep only those whose name matches the delete regex.
Returns the deletion candidates. -/
def filterTagsRegex (keepTest deleteTest : String → Bool)
    (tags : List CondensedTag) : List CondensedTag :=
  let deleteCandidate := tags.filter (fun t => !(keepTest t.name))
  deleteCandidate.filter (fun t => deleteTest t.name)

/-- Embedding of `getTagDetails`: one worker walks its chunk sequentially,
calling `ContainerRegistry.showTag` per tag; a tag whose fetch fails (404 or
any other error) is logged and skipped, so the result collects exactly the
successful fetches in order. -/
def getTagDetails (showTag : String → Option DetailedTag)
    (tagChunk : List CondensedTag) : List DetailedTag :=
  tagChunk.filterMap (fun t => showTag t.name)

/-- Embedding of `getTagDetailsConcurrently`: split the tags into
`Math.ceil (tags.length / concurrency)`-sized contiguous chunks, fetch the
chunks concurrently (`Promise.all` preserves order) and flatten. -/
def getTagDetailsConcurrently (concurrency : Nat)
    (showTag : String → Option DetailedTag)
    (tags : List CondensedTag) : List DetailedTag :=
  let chunkSize := ceilDiv tags.length concurrency
  ((chunkList chunkSize tags).map (getTagDetails showTag)).flatten

/-- The comparator `(a, b) => semver.rcompare (coerce a.name) (coerce b.name)`
of `sortBySemver`, as the relation "comparator(a, b) ≤ 0": a coercible tag
sorts before an incoercible one, two coercible tags sort newest version
first, and two incoercible tags fall back to
`b.name.localeCompare(a.name)`, i.e. descending name order. -/
def semverLe (coerce : String → Option Version) (a b : DetailedTag) : Bool :=
  match coerce a.name, coerce b.name with
  | some va, some vb => versionLe vb va
  | some _, none => true
  | none, some _ => false
  | none, none => localeLe b.name a.name

/-- Embedding of `sortBySemver` (stable JS sort over the `semverLe`
comparator). -/
def sortBySemver (coerce : String → Option Version)
    (tags : List DetailedTag) : List DetailedTag :=
  List.insertionSort (fun a b => semverLe coerce a b = true) tags

/-- The comparator `(a, b) => new Date(b.created_at) - new Date(a.created_at)`
used to sort detailed tags newest first, as the relation
"comparator(a, b) ≤ 0". -/
def createdDescLe (a b : DetailedTag) : Bool :=
  decide (b.created_at ≤ a.created_at)

/-- Embedding of `detailedTags.sort((a, b) => ...)`: stable sort by creation
timestamp, newest first. -/
def sortByCreatedAtDesc (tags : List DetailedTag) : List DetailedTag :=
  List.insertionSort (fun a b => createdDescLe a b = true) tags

/-- The placeholder detailed tag the fallback path synthesizes from a
condensed tag: same name, path and location, and the current time as the
dummy `created_at`. -/
def fallbackTag (now : Int) (t : CondensedTag) : DetailedTag :=
  ⟨t.name, t.path, t.location, now⟩

/-- The age filter `(now - created) / (1000*3600*24) > olderThanDays`,
cross-multiplied by the positive constant `MS_PER_DAY` so that the exact
rational comparison becomes an integer comparison. -/
def tagIsOlderThan (now created_at olderThanDays : Int) : Bool :=
  decide (olderThanDays * MS_PER_DAY < now - created_at)

/-- Embedding of `filterTagsCreationDate`.  Fetch details for all (already
regex-filtered) tags.  If no details at all could be fetched for a nonempty
input, enter the degraded fallback: synthesize placeholder tags dated `now`;
with a positive `keepMostRecentN` sort them by `sortBySemver` and delete
everything after the first `keepMostRecentN`, otherwise delete all of them —
in both fallback branches the age filter is skipped.  Otherwise sort the
details newest first, reserve the first `keepMostRecentN`, and of the rest
delete those strictly older than `olderThanDays` days. -/
def filterTagsCreationDate (concurrency : Nat)
    (showTag : String → Option DetailedTag)
    (coerce : String → Option Version) (now : Int)
    (tags : List CondensedTag) (olderThanDays : Int)
    (keepMostRecentN : Nat) : List DetailedTag :=
  let detailedTags := getTagDetailsConcurrently concurrency showTag tags
  if detailedTags.length = 0 ∧ tags.length > 0 then
    let fallbackTags := tags.map (fallbackTag now)
    if keepMostRecentN > 0 then
      let sorted := sortBySemver coerce fallbackTags
      sorted.drop keepMostRecentN
    else
      fallbackTags
  else
    let sorted := sortByCreatedAtDesc detailedTags
    let tagsToConsiderForDeletion := sorted.drop keepMostRecentN
    tagsToConsiderForDeletion.filter
      (fun t => tagIsOlderThan now t.created_at olderThanDays)

/-- One `ContainerRegistry.removeTag(projectId, repositoryId, name)` network
call actually issued by the delete stage. -/
structure RemoveCall where
  projectId : Nat
  repositoryId : Nat
  tagName : String
deriving DecidableEq, Repr

/-- Embedding of `deleteTags`: walk the chunk sequentially; per tag, in
dry-run mode only log, otherwise await `removeTag`.  The result is the list
of deletion calls issued by this worker together with the rejection that
aborted it, if any (an awaited rejection ends the loop; the failing call was
still issued). -/
def deleteTags (dryRun : Bool)
    (removeTag : Nat → Nat → String → Except String Unit)
    (projectId repositoryId : Nat) :
    List DetailedTag → List RemoveCall × Option String
  | [] => ([], none)
  | tag :: rest =>
    if dryRun then
      deleteTags dryRun removeTag projectId repositoryId rest
    else
      match removeTag projectId repositoryId tag.name with
      | Except.ok _ =>
        let r := deleteTags dryRun removeTag projectId repositoryId rest
        (⟨projectId, repositoryId, tag.name⟩ :: r.1, r.2)
      | Except.error e => ([⟨projectId, repositoryId, tag.name⟩], some e)

/-- Embedding of `deleteTagsConcurrently`: split the deletion set into
`Math.ceil (tags.length / concurrency)`-sized chunks, run the chunk workers
concurrently, concatenate the calls they issued; `Promise.all` rejects with
the first chunk rejection, if any. -/
def deleteTagsConcurrently (concurrency : Nat) (dryRun : Bool)
    (removeTag : Nat → Nat → String → Except String Unit)
    (projectId repositoryId : Nat)
    (tags : List DetailedTag) : List RemoveCall × Option String :=
  let chunkSize := ceilDiv tags.length concurrency
  let chunkResults :=
    (chunkList chunkSize tags).map
      (deleteTags dryRun removeTag projectId repositoryId)
  ((chunkResults.map Prod.fst).flatten, (chunkResults.filterMap Prod.snd).head?)

/-- Embedding of `getContainerRepositoriesConcurrently` (ranged repository
discovery).  A start index past the end index throws; otherwise every ID in
the inclusive range is probed in batches of `concurrency` via
`showRepository` with `Promise.allSettled`, rejected probes (404 on a
missing ID, or any other error) are ignored, and fulfilled ones are
collected in order; an empty result throws. -/
def getContainerRepositoriesConcurrently (concurrency : Nat)
    (showRepository : Nat → Option Repository)
    (startIndex endIndex : Nat) : Except String (List Repository) :=
  if startIndex > endIndex then
    Except.error "Start index is greater than end index"
  else
    let repositoryIds := (List.range (endIndex - startIndex + 1)).map (· + startIndex)
    let repositories :=
      ((chunkList concurrency repositoryIds).map
        (fun batch => batch.filterMap showRepository)).flatten
    if repositories.length = 0 then
      Except.error "   No repositories found. Maybe try again with a different ID range?"
    else
      Except.ok repositories

/-- Embedding of `getRepositoryTagsConcurrently` (the tag lister): compute
the page count from the repository tag count, fetch the pages in batches of
`concurrency` (`listPage` is the paginated `ContainerRegistry.allTags`
oracle) and concatenate everything in order. -/
def getRepositoryTagsConcurrently (concurrency : Nat)
    (listPage : Nat → List CondensedTag)
    (repository : Repository) (tagsPerPage : Nat) : List CondensedTag :=
  let tagCount := repository.tags_count
  let pageTotal := ceilDiv tagCount tagsPerPage
  let pages := (List.range pageTotal).map (· + 1)
  ((chunkList concurrency pages).map
    (fun batch => (batch.map listPage).flatten)).flatten

/-- The observable outcome of one `cleanupContainerRepositoryTags` run:
the computed deletion set, the count it reports in its logs (computed before
the delete stage runs), the deletion calls the fired-off delete stage
issues, and the rejection of that stage, if any. -/
structure CleanupOutcome where
  deletionSet : List DetailedTag
  reportedCount : Nat
  deleteCalls : List RemoveCall
  deleteStageError : Option String
deriving DecidableEq, Repr

/-- Embedding of `cleanupContainerRepositoryTags`.  The initial
`showRepository` await is represented by passing the fetched `repository`;
prompts and JSON file output are external I/O with no effect on the
computation.  The pipeline lists all tags, filters them by regex, filters
the candidates by creation date and recency, computes the count it will
report, and then invokes `deleteTagsConcurrently` WITHOUT awaiting the
returned promise: the delete stage runs (its calls happen) but its result is
never propagated, so it is recorded in the outcome and nowhere else. -/
def cleanupContainerRepositoryTags (dryRun : Bool) (concurrency : Nat)
    (listPage : Nat → List CondensedTag)
    (showTag : String → Option DetailedTag)
    (removeTag : Nat → Nat → String → Except String Unit)
    (coerce : String → Option Version) (now : Int)
    (repository : Repository) (repositoryId : Nat)
    (keepTest deleteTest : String → Bool)
    (olderThanDays : Int) (tagsPerPage : Nat)
    (keepMostRecentN : Nat) : CleanupOutcome :=
  let projectId := repository.project_id
  let allTags := getRepositoryTagsConcurrently concurrency listPage repository tagsPerPage
  let regexFilteredTags := filterTagsRegex keepTest deleteTest allTags
  let deleteTagsList :=
    filterTagsCreationDate concurrency showTag coerce now regexFilteredTags
      olderThanDays keepMostRecentN
  let deleteTagCount := deleteTagsList.length
  let deleteStage :=
    deleteTagsConcurrently concurrency dryRun removeTag projectId repositoryId deleteTagsList
  ⟨deleteTagsList, deleteTagCount, deleteStage.1, deleteStage.2⟩

/-- Retention filter in the step order the specification describes
(for refinement comparison with the implemented pipeline): fetch details for
ALL listed tags, sort them newest first, reserve the first `keepMostRecentN`
unconditionally, then apply the keep regex and the delete regex to the
remainder, then the age filter. -/
def specOrderDeletionSet (concurrency : Nat)
    (showTag : String → Option DetailedTag) (now : Int)
    (allTags : List CondensedTag) (keepTest deleteTest : String → Bool)
    (olderThanDays : Int) (keepMostRecentN : Nat) : List DetailedTag :=
  let detailedTags := getTagDetailsConcurrently concurrency showTag allTags
  let sorted := sortByCreatedAtDesc detailedTags
  let remainder := sorted.drop keepMostRecentN
  let afterKeep := remainder.filter (fun t => !(keepTest t.name))
  let afterDelete := afterKeep.filter (fun t => deleteTest t.name)
  afterDelete.filter (fun t => tagIsOlderThan now t.created_at olderThanDays)

/-- The fallback ordering described by the specification sentence
"incoercible tags sort after coercible ones, alphabetically" (for refinement
comparison with `semverLe`): identical to the implemented comparator except
that two incoercible tags compare in ASCENDING name order. -/
def semverLeSpecOrder (coerce : String → Option Version)
    (a b : DetailedTag) : Bool :=
  match coerce a.name, coerce b.name with
  | some va, some vb => versionLe vb va
  | some _, none => true
  | none, some _ => false
  | none, none => localeLe a.name b.name

/-- Stable sort over `semverLeSpecOrder` (for refinement comparison with
`sortBySemver`). -/
def sortBySemverSpecOrder (coerce : String → Option Version)
    (tags : List DetailedTag) : List DetailedTag :=
  List.insertionSort (fun a b => semverLeSpecOrder coerce a b = true) tags

/-- An observable event of a CLI action: a fatal configuration exit
(`process.exit(code)` from `checkEnvironment`) or a network request to the
GitLab API. -/
inductive CliEvent where
  | fatalExit (code : Nat)
  | networkCall (endpoint : String)
deriving DecidableEq, Repr

/-- JS truthiness of an environment variable: absent or empty means
missing. -/
def envMissing : Option String → Bool
  | none => true
  | some s => s == ""

/-- Embedding of `checkEnvironment` in `main.ts`: exit code 1 when
`GITLAB_HOST` is missing, else exit code 2 when `GITLAB_TOKEN` is missing,
else proceed. -/
def checkEnvironment (gitlabHost gitlabToken : Option String) : Option Nat :=
  if envMissing gitlabHost then some 1
  else if envMissing gitlabToken then some 2
  else none

/-- Event trace of the `list all` action: it calls `checkEnvironment` first
(exiting fatally on a missing variable, before any request) and only then
starts ranged discovery, whose first network request is
`ContainerRegistry.showRepository`. -/
def actionListAllRepositories (gitlabHost gitlabToken : Option String) : List CliEvent :=
  match checkEnvironment gitlabHost gitlabToken with
  | some code => [CliEvent.fatalExit code]
  | none => [CliEvent.networkCall "ContainerRegistry.showRepository"]

/-- Event trace of the `clean` action: it calls `checkEnvironment` first and
only then starts the cleanup, whose first network request is
`ContainerRegistry.showRepository`. -/
def actionCleanRepository (gitlabHost gitlabToken : Option String) : List CliEvent :=
  match checkEnvironment gitlabHost gitlabToken with
  | some code => [CliEvent.fatalExit code]
  | none => [CliEvent.networkCall "ContainerRegistry.showRepository"]

/-- Event trace of the `list project` action: the source constructs the
cleaner and immediately awaits `getProjectContainerRepositories`, issuing
`ContainerRegistry.allRepositories` without ever calling
`checkEnvironment`, whatever the environment holds. -/
def actionListProjectRepositories (gitlabHost gitlabToken : Option String) : List CliEvent :=
  [CliEvent.networkCall "ContainerRegistry.allRepositories"]

/-- Event trace of the `list group` action: like `list project`, it never
calls `checkEnvironment`. -/
def actionListGroupRepositories (gitlabHost gitlabToken : Option String) : List CliEvent :=
  [CliEvent.networkCall "ContainerRegistry.allRepositories"]

/-- The four CLI commands of the tool. -/
inductive CliCommand where
  | listAll
  | listProject
  | listGroup
  | clean
deriving DecidableEq, Repr

/-- Dispatch a CLI command to its action trace. -/
def runCliCommand : CliCommand → Option String → Option String → List CliEvent
  | CliCommand.listAll, h, t => actionListAllRepositories h t
  | CliCommand.listProject, h, t => actionListProjectRepositories h t
  | CliCommand.listGroup, h, t => actionListGroupRepositories h t
  | CliCommand.clean, h, t => actionCleanRepository h t

/-- Whether a CLI event is a network request. -/
def isNetworkCall : CliEvent → Bool
  | CliEvent.networkCall _ => true
  | _ => false

/-- Whether a CLI event is a fatal configuration exit. -/
def isFatalExit : CliEvent → Bool
  | CliEvent.fatalExit _ => true
  | _ => false

/-- Concrete fixture: a detail-fetch oracle that fails on every tag, the
situation GitLab exhibits for OCI manifests (every `showTag` yields 404). -/
def showTagNone : String → Option DetailedTag := fun _ => none

/-- Concrete fixture: the restriction of `semver.coerce` to the digit-free
tag names used in the concrete inputs of this file ("alpha", "beta", "only",
"keepme", "old", "tag-jan", ...): `semver.coerce` returns `null` for a name
containing no digits. -/
def coerceNone : String → Option Version := fun _ => none

/-- Concrete fixture: a keep test matching nothing, e.g. the JS regex `"^$"`
over nonempty tag names. -/
def keepNone : String → Bool := fun _ => false

/-- Concrete fixture tag "alpha" (incoercible to a version). -/
def alphaC : CondensedTag := ⟨"alpha", "p/alpha", "registry/p/alpha"⟩

/-- Concrete fixture tag "beta" (incoercible to a version). -/
def betaC : CondensedTag := ⟨"beta", "p/beta", "registry/p/beta"⟩

/-- Concrete fixture tag "only". -/
def cOnly : CondensedTag := ⟨"only", "p/only", "registry/p/only"⟩

/-- Concrete fixture detail of `cOnly`, created at epoch millisecond 500. -/
def detOnly : DetailedTag := ⟨"only", "p/only", "registry/p/only", 500⟩

/-- Concrete fixture detail-fetch oracle resolving exactly `cOnly`. -/
def showTagW : String → Option DetailedTag :=
  fun s => if s = "only" then some detOnly else none

/-- Concrete fixture repository holding one tag. -/
def repoW : Repository := ⟨7, 3, "g/p", 1⟩

/-- Concrete fixture page oracle for `repoW`: every page holds `cOnly`. -/
def listPageW : Nat → List CondensedTag := fun _ => [cOnly]

/-- Concrete fixture tag "keepme", matched by the keep test below. -/
def cKeepme : CondensedTag := ⟨"keepme", "p/k", "registry/p/k"⟩

/-- Concrete fixture tag "old". -/
def cOld : CondensedTag := ⟨"old", "p/o", "registry/p/o"⟩

/-- Concrete fixture detail of `cKeepme`, created at epoch millisecond 2000
(the newest tag of its fixture). -/
def detKeepme : DetailedTag := ⟨"keepme", "p/k", "registry/p/k", 2000⟩

/-- Concrete fixture detail of `cOld`, created at epoch millisecond 1000. -/
def detOld : DetailedTag := ⟨"old", "p/o", "registry/p/o", 1000⟩

/-- Concrete fixture detail-fetch oracle resolving `cKeepme` and `cOld`. -/
def showTagC4 : String → Option DetailedTag :=
  fun s =>
    if s = "keepme" then some detKeepme
    else if s = "old" then some detOld
    else none

/-- Concrete fixture keep test: the JS regex `"keepme"` over the fixture tag
names matches exactly the name "keepme". -/
def keepKeepme : String → Bool := fun s => s == "keepme"

/-- Concrete fixture repository for the C5 witness. -/
def repoFound : Repository := ⟨2, 9, "a/b", 0⟩

/-- Concrete fixture discovery oracle: only repository ID 2 exists. -/
def showRepoW : Nat → Option Repository :=
  fun i => if i = 2 then some repoFound else none

/-- Epoch milliseconds of 2024-01-01T00:00:00Z. -/
def msJan : Int := 1704067200000

/-- Epoch milliseconds of 2024-02-01T00:00:00Z. -/
def msFeb : Int := 1706745600000

/-- Epoch milliseconds of 2024-03-01T00:00:00Z. -/
def msMar : Int := 1709251200000

/-- Epoch milliseconds of 2024-04-01T00:00:00Z. -/
def msApr : Int := 1711929600000

/-- Epoch milliseconds of 2024-05-01T00:00:00Z. -/
def msMay : Int := 1714521600000

/-- Epoch milliseconds of 2024-06-01T00:00:00Z. -/
def msJun : Int := 1717200000000

/-- Concrete fixture tag created 2024-01-01. -/
def cJan : CondensedTag := ⟨"tag-jan", "p/jan", "registry/p/jan"⟩

/-- Concrete fixture tag created 2024-02-01. -/
def cFeb : CondensedTag := ⟨"tag-feb", "p/feb", "registry/p/feb"⟩

/-- Concrete fixture tag created 2024-03-01. -/
def cMar : CondensedTag := ⟨"tag-mar", "p/mar", "registry/p/mar"⟩

/-- Concrete fixture tag created 2024-04-01. -/
def cApr : CondensedTag := ⟨"tag-apr", "p/apr", "registry/p/apr"⟩

/-- Concrete fixture tag created 2024-05-01. -/
def cMay : CondensedTag := ⟨"tag-may", "p/may", "registry/p/may"⟩

/-- Concrete fixture detail of `cJan`. -/
def detJan : DetailedTag := ⟨"tag-jan", "p/jan", "registry/p/jan", msJan⟩

/-- Concrete fixture detail of `cFeb`. -/
def detFeb : DetailedTag := ⟨"tag-feb", "p/feb", "registry/p/feb", msFeb⟩

/-- Concrete fixture detail of `cMar`. -/
def detMar : DetailedTag := ⟨"tag-mar", "p/mar", "registry/p/mar", msMar⟩

/-- Concrete fixture detail of `cApr`. -/
def detApr : DetailedTag := ⟨"tag-apr", "p/apr", "registry/p/apr", msApr⟩

/-- Concrete fixture detail of `cMay`. -/
def detMay : DetailedTag := ⟨"tag-may", "p/may", "registry/p/may", msMay⟩

/-- Concrete fixture detail-fetch oracle resolving the five dated tags. -/
def showTagC7 : String → Option DetailedTag :=
  fun s =>
    if s = "tag-jan" then some detJan
    else if s = "tag-feb" then some detFeb
    else if s = "tag-mar" then some detMar
    else if s = "tag-apr" then some detApr
    else if s = "tag-may" then some detMay
    else none

theorem chunkListAux_flatten (k : Nat) :
    ∀ (fuel : Nat) (l : List α), l.length ≤ fuel →
      (chunkListAux k fuel l).flatten = l := by
  intro fuel
  induction fuel with
  | zero =>
    intro l hl
    have : l = [] := List.eq_nil_of_length_eq_zero (Nat.le_zero.mp hl)
    subst this
    rfl
  | succ fuel ih =>
    intro l hl
    cases l with
    | nil => rfl
    | cons x xs =>
      by_cases hk : k = 0
      · simp [chunkListAux, hk]
      · have hlen : ((x :: xs).drop k).length ≤ fuel := by
          simp only [List.length_drop, List.length_cons] at *
          omega
        simp only [chunkListAux, hk, if_false, List.flatten_cons, ih _ hlen]
        exact List.take_append_drop k (x :: xs)

theorem chunkList_flatten (k : Nat) (l : List α) :
    (chunkList k l).flatten = l :=
  chunkListAux_flatten k l.length l le_rfl

theorem filterMap_chunkList (k : Nat) (f : α → Option β) (l : List α) :
    ((chunkList k l).map (List.filterMap f)).flatten = l.filterMap f := by
  rw [← List.filterMap_flatten, chunkList_flatten]

theorem getTagDetailsConcurrently_eq (concurrency : Nat)
    (showTag : String → Option DetailedTag) (tags : List CondensedTag) :
    getTagDetailsConcurrently concurrency showTag tags =
      tags.filterMap (fun t => showTag t.name) := by
  unfold getTagDetailsConcurrently getTagDetails
  exact filterMap_chunkList _ _ tags

theorem mem_filterTagsRegex (keepTest deleteTest : String → Bool)
    (tags : List CondensedTag) (c : CondensedTag) :
    c ∈ filterTagsRegex keepTest deleteTest tags ↔
      c ∈ tags ∧ keepTest c.name = false ∧ deleteTest c.name = true := by
  simp only [filterTagsRegex, List.mem_filter, Bool.not_eq_true']
  tauto

theorem versionLe_iff (a b : Version) :
    versionLe a b = true ↔
      (a.major < b.major ∨ (a.major = b.major ∧
        (a.minor < b.minor ∨ (a.minor = b.minor ∧ a.patch ≤ b.patch)))) := by
  simp [versionLe]

theorem versionLe_total (a b : Version) :
    versionLe a b = true ∨ versionLe b a = true := by
  rw [versionLe_iff, versionLe_iff]
  omega

theorem versionLe_trans (a b c : Version) (hab : versionLe a b = true)
    (hbc : versionLe b c = true) : versionLe a c = true := by
  rw [versionLe_iff] at *
  omega

theorem strLeAux_total (a b : List Char) :
    strLeAux a b = true ∨ strLeAux b a = true := by
  induction a generalizing b with
  | nil => left; rfl
  | cons c cs ih =>
    cases b with
    | nil => right; rfl
    | cons d ds =>
      simp only [strLeAux]
      rcases lt_trichotomy c d with h | h | h
      · left; simp [h]
      · subst h
        simp only [lt_self_iff_false, if_false]
        exact ih ds
      · right; simp [h]

theorem strLeAux_trans (a b c : List Char) (hab : strLeAux a b = true)
    (hbc : strLeAux b c = true) : strLeAux a c = true := by
  induction a generalizing b c with
  | nil => rfl
  | cons x xs ih =>
    cases b with
    | nil => simp [strLeAux] at hab
    | cons y ys =>
      cases c with
      | nil => simp [strLeAux] at hbc
      | cons z zs =>
        simp only [strLeAux] at *
        rcases lt_trichotomy x y with h1 | h1 | h1
        · rcases lt_trichotomy y z with h2 | h2 | h2
          · simp [lt_trans h1 h2]
          · subst h2; simp [h1]
          · simp [lt_asymm h2, h2] at hbc
        · subst h1
          rcases lt_trichotomy x z with h2 | h2 | h2
          · simp [h2]
          · subst h2
            simp only [lt_self_iff_false, if_false] at *
            exact ih _ _ hab hbc
          · simp [lt_asymm h2, h2] at hbc
        · simp [lt_asymm h1, h1] at hab

theorem semverLe_total (coerce : String → Option Version) (a b : DetailedTag) :
    semverLe coerce a b = true ∨ semverLe coerce b a = true := by
  unfold semverLe
  cases coerce a.name with
  | none =>
    cases coerce b.name with
    | none => exact (strLeAux_total b.name.data a.name.data).imp id id
    | some vb => right; rfl
  | some va =>
    cases coerce b.name with
    | none => left; rfl
    | some vb => exact (versionLe_total vb va).imp id id

theorem semverLe_trans (coerce : String → Option Version) (a b c : DetailedTag)
    (hab : semverLe coerce a b = true) (hbc : semverLe coerce b c = true) :
    semverLe coerce a c = true := by
  cases ha : coerce a.name <;> cases hb : coerce b.name <;> cases hc : coerce c.name <;>
    simp_all [semverLe, localeLe]
  · exact strLeAux_trans _ _ _ hbc hab
  · exact versionLe_trans _ _ _ hbc hab

theorem deleteTags_dryRun (removeTag : Nat → Nat → String → Except String Unit)
    (projectId repositoryId : Nat) (l : List DetailedTag) :
    deleteTags true removeTag projectId repositoryId l = ([], none) := by
  induction l with
  | nil => rfl
  | cons t rest ih => simp [deleteTags, ih]

theorem filterMap_chunkList_lam (k : Nat) (f : α → Option β) (l : List α) :
    ((chunkList k l).map (fun batch => batch.filterMap f)).flatten = l.filterMap f :=
  filterMap_chunkList k f l

theorem mem_sortByCreatedAtDesc (l : List DetailedTag) (t : DetailedTag) :
    t ∈ sortByCreatedAtDesc l ↔ t ∈ l := by
  unfold sortByCreatedAtDesc
  exact (List.perm_insertionSort _ _).mem_iff

theorem mem_sortBySemver (coerce : String → Option Version)
    (l : List DetailedTag) (t : DetailedTag) :
    t ∈ sortBySemver coerce l ↔ t ∈ l := by
  unfold sortBySemver
  exact (List.perm_insertionSort _ _).mem_iff

theorem name_mem_of_mem_filterTagsCreationDate
    (concurrency : Nat) (showTag : String → Option DetailedTag)
    (coerce : String → Option Version) (now olderThanDays : Int)
    (keepMostRecentN : Nat) (tags : List CondensedTag) (t : DetailedTag)
    (hname : ∀ s d, showTag s = some d → d.name = s)
    (ht : t ∈ filterTagsCreationDate concurrency showTag coerce now tags
        olderThanDays keepMostRecentN) :
    t.name ∈ tags.map CondensedTag.name := by
  simp only [filterTagsCreationDate] at ht
  by_cases hcond : (getTagDetailsConcurrently concurrency showTag tags).length = 0
      ∧ tags.length > 0
  · rw [if_pos hcond] at ht
    by_cases hN : keepMostRecentN > 0
    · rw [if_pos hN] at ht
      have h1 : t ∈ tags.map (fallbackTag now) :=
        (mem_sortBySemver coerce _ t).mp (List.mem_of_mem_drop ht)
      obtain ⟨c, hc, heq⟩ := List.mem_map.mp h1
      exact List.mem_map.mpr ⟨c, hc, heq ▸ rfl⟩
    · rw [if_neg hN] at ht
      obtain ⟨c, hc, heq⟩ := List.mem_map.mp ht
      exact List.mem_map.mpr ⟨c, hc, heq ▸ rfl⟩
  · rw [if_neg hcond] at ht
    have h1 : t ∈ getTagDetailsConcurrently concurrency showTag tags :=
      (mem_sortByCreatedAtDesc _ t).mp
        (List.mem_of_mem_drop (List.mem_filter.mp ht).1)
    rw [getTagDetailsConcurrently_eq] at h1
    obtain ⟨c, hc, hshow⟩ := List.mem_filterMap.mp h1
    exact List.mem_map.mpr ⟨c, hc, (hname c.name t hshow).symm⟩

theorem showTagW_name : ∀ s d, showTagW s = some d → d.name = s := by
  intro s d h
  unfold showTagW at h
  by_cases hs : s = "only"
  · rw [if_pos hs] at h
    cases h
    exact hs.symm
  · rw [if_neg hs] at h
    exact Option.noConfusion h

/-- C1: for every list of tags and every other input (age threshold,
keep-most-recent count, current time, concurrency, oracles), if the keep
regex is the default `".*"` and the delete regex is the default `"^$"`, the
deletion set computed by the cleanup pipeline (`filterTagsRegex` followed by
`filterTagsCreationDate`) is empty. -/
theorem default_regexes_yield_empty_deletion_set
    (concurrency : Nat) (showTag : String → Option DetailedTag)
    (coerce : String → Option Version) (now olderThanDays : Int)
    (keepMostRecentN : Nat) (tags : List CondensedTag) :
    filterTagsCreationDate concurrency showTag coerce now
      (filterTagsRegex regexTestMatchAll regexTestEmptyOnly tags)
      olderThanDays keepMostRecentN = [] := by
  have hr : filterTagsRegex regexTestMatchAll regexTestEmptyOnly tags = [] := by
    simp [filterTagsRegex, regexTestMatchAll]
  rw [hr]
  simp [filterTagsCreationDate, getTagDetailsConcurrently, chunkList, chunkListAux,
    sortByCreatedAtDesc]

/-- C2: with dry-run enabled, the deletion stage (`deleteTagsConcurrently`,
hence each `deleteTags` worker) issues no `removeTag` network call at all
and rejects with nothing, for every deletion set and every behavior of the
`removeTag` oracle. -/
theorem dry_run_issues_no_deletion_calls
    (concurrency : Nat) (removeTag : Nat → Nat → String → Except String Unit)
    (projectId repositoryId : Nat) (tags : List DetailedTag) :
    deleteTagsConcurrently concurrency true removeTag projectId repositoryId tags
      = ([], none) := by
  have h : ∀ L : List (List DetailedTag),
      ((L.map (deleteTags true removeTag projectId repositoryId)).map Prod.fst).flatten = []
      ∧ (L.map (deleteTags true removeTag projectId repositoryId)).filterMap Prod.snd = [] := by
    intro L
    induction L with
    | nil => exact ⟨rfl, rfl⟩
    | cons x xs ih => simp [deleteTags_dryRun, ih.1, ih.2]
  simp only [deleteTagsConcurrently]
  rw [(h _).1, (h _).2]
  rfl

/-- C7: for five tags created on the first of January through May 2024,
evaluated at 2024-06-01 with keepMostRecentN 2, olderThanDays 0, keep regex
`"^$"` and delete regex `".*"`, the retention filter selects exactly the
three oldest tags for deletion. -/
theorem five_dates_three_oldest_deleted :
    filterTagsCreationDate 20 showTagC7 coerceNone msJun
      (filterTagsRegex regexTestEmptyOnly regexTestMatchAll
        [cJan, cFeb, cMar, cApr, cMay]) 0 2
      = [detMar, detFeb, detJan] := by decide

/-- C10: `cleanupContainerRepositoryTags` fires off the delete stage without
awaiting it; its reported count is the length of the deletion set, computed
before any delete call resolves, and its outcome (deletion set and reported
count) is identical under any two `removeTag` oracles — in particular under
an oracle rejecting every call, so a rejected delete never makes the
cleanup itself fail. -/
theorem cleanup_reports_count_without_awaiting_deletes
    (dryRun : Bool) (concurrency : Nat) (listPage : Nat → List CondensedTag)
    (showTag : String → Option DetailedTag)
    (removeTag removeTag2 : Nat → Nat → String → Except String Unit)
    (coerce : String → Option Version) (now : Int) (repository : Repository)
    (repositoryId : Nat) (keepTest deleteTest : String → Bool)
    (olderThanDays : Int) (tagsPerPage keepMostRecentN : Nat) :
    (cleanupContainerRepositoryTags dryRun concurrency listPage showTag removeTag
        coerce now repository repositoryId keepTest deleteTest olderThanDays
        tagsPerPage keepMostRecentN).reportedCount
      = (cleanupContainerRepositoryTags dryRun concurrency listPage showTag removeTag
        coerce now repository repositoryId keepTest deleteTest olderThanDays
        tagsPerPage keepMostRecentN).deletionSet.length
    ∧ (cleanupContainerRepositoryTags dryRun concurrency listPage showTag removeTag
        coerce now repository repositoryId keepTest deleteTest olderThanDays
        tagsPerPage keepMostRecentN).deletionSet
      = (cleanupContainerRepositoryTags dryRun concurrency listPage showTag removeTag2
        coerce now repository repositoryId keepTest deleteTest olderThanDays
        tagsPerPage keepMostRecentN).deletionSet
    ∧ (cleanupContainerRepositoryTags dryRun concurrency listPage showTag removeTag
        coerce now repository repositoryId keepTest deleteTest olderThanDays
        tagsPerPage keepMostRecentN).reportedCount
      = (cleanupContainerRepositoryTags dryRun concurrency listPage showTag removeTag2
        coerce now repository repositoryId keepTest deleteTest olderThanDays
        tagsPerPage keepMostRecentN).reportedCount := by
  refine ⟨?_, ?_, ?_⟩ <;> simp only [cleanupContainerRepositoryTags]

/-- C5: for every ID range with start at most end and a positive concurrency,
ranged repository discovery returns exactly the repositories whose probe
resolved, never fails because of a rejected (not-found) probe, and fails if
and only if no repository in the range resolved. -/
theorem discovery_returns_existing_and_throws_iff_empty
    (concurrency : Nat) (showRepository : Nat → Option Repository)
    (startIndex endIndex : Nat)
    (h : startIndex ≤ endIndex) (hc : 0 < concurrency) :
    getContainerRepositoriesConcurrently concurrency showRepository startIndex endIndex
      = (if ((List.range (endIndex - startIndex + 1)).map (· + startIndex)).filterMap
            showRepository = []
        then Except.error
          "   No repositories found. Maybe try again with a different ID range?"
        else Except.ok (((List.range (endIndex - startIndex + 1)).map (· + startIndex)).filterMap
          showRepository)) := by
  simp only [getContainerRepositoriesConcurrently]
  rw [if_neg (by omega : ¬ startIndex > endIndex)]
  rw [filterMap_chunkList_lam]
  simp only [List.length_eq_zero]

/-- Witness for the discovery theorem: range 1..3 in which only ID 2 exists
resolves to exactly that repository. -/
theorem discovery_returns_existing_witness :
    (1 ≤ 3 ∧ 0 < 1)
    ∧ getContainerRepositoriesConcurrently 1 showRepoW 1 3
      = (if ((List.range (3 - 1 + 1)).map (· + 1)).filterMap showRepoW = []
        then Except.error
          "   No repositories found. Maybe try again with a different ID range?"
        else Except.ok (((List.range (3 - 1 + 1)).map (· + 1)).filterMap showRepoW)) :=
  ⟨⟨by decide, by decide⟩,
    discovery_returns_existing_and_throws_iff_empty 1 showRepoW 1 3 (by decide) (by decide)⟩

/-- Refutation of C3 as stated: with the default age threshold of 90 days, a
tag whose detail fetch failed is nevertheless placed in the deletion set by
the fallback path, although its (synthesized) age of zero days does not
exceed the threshold. -/
theorem age_condition_fails_in_fallback :
    filterTagsCreationDate 1 showTagNone coerceNone 0
      (filterTagsRegex keepNone regexTestMatchAll [cOnly]) 90 0
      = [fallbackTag 0 cOnly]
    ∧ tagIsOlderThan 0 (fallbackTag 0 cOnly).created_at 90 = false := by decide

/-- C3 (amended): outside the degraded detail-fetch fallback, a tag is in
the final deletion set only if its name fails the keep test, passes the
delete test, the tag lies outside the reserved most-recent-N prefix of the
sorted candidates, and its age exceeds the threshold.  The name-preservation
hypothesis states that the detail endpoint returns the tag it was asked
for. -/
theorem deletion_requires_regexes_recency_and_age
    (concurrency : Nat) (showTag : String → Option DetailedTag)
    (coerce : String → Option Version) (now olderThanDays : Int)
    (keepMostRecentN : Nat) (keepTest deleteTest : String → Bool)
    (tags : List CondensedTag) (t : DetailedTag)
    (hname : ∀ s d, showTag s = some d → d.name = s)
    (hnf : getTagDetailsConcurrently concurrency showTag
          (filterTagsRegex keepTest deleteTest tags) ≠ []
        ∨ filterTagsRegex keepTest deleteTest tags = [])
    (ht : t ∈ filterTagsCreationDate concurrency showTag coerce now
        (filterTagsRegex keepTest deleteTest tags) olderThanDays keepMostRecentN) :
    keepTest t.name = false ∧ deleteTest t.name = true
    ∧ t ∈ (sortByCreatedAtDesc (getTagDetailsConcurrently concurrency showTag
        (filterTagsRegex keepTest deleteTest tags))).drop keepMostRecentN
    ∧ tagIsOlderThan now t.created_at olderThanDays = true := by
  have hcond : ¬((getTagDetailsConcurrently concurrency showTag
      (filterTagsRegex keepTest deleteTest tags)).length = 0
      ∧ (filterTagsRegex keepTest deleteTest tags).length > 0) := by
    rcases hnf with h | h
    · intro hcp
      exact h (List.length_eq_zero.mp hcp.1)
    · intro hcp
      rw [h] at hcp
      simp at hcp
  simp only [filterTagsCreationDate] at ht
  rw [if_neg hcond] at ht
  obtain ⟨hmem, hage⟩ := List.mem_filter.mp ht
  have h2 : t ∈ getTagDetailsConcurrently concurrency showTag
      (filterTagsRegex keepTest deleteTest tags) :=
    (mem_sortByCreatedAtDesc _ t).mp (List.mem_of_mem_drop hmem)
  rw [getTagDetailsConcurrently_eq] at h2
  obtain ⟨c, hc, hshow⟩ := List.mem_filterMap.mp h2
  have hnm : t.name = c.name := hname c.name t hshow
  obtain ⟨_, hkeep, hdel⟩ := (mem_filterTagsRegex _ _ _ _).mp hc
  rw [hnm]
  exact ⟨hkeep, hdel, hmem, hage⟩

/-- Witness for the amended C3 theorem at a concrete run in which one tag is
deleted. -/
theorem deletion_requires_filters_witness :
    ((∀ s d, showTagW s = some d → d.name = s)
      ∧ (getTagDetailsConcurrently 1 showTagW
            (filterTagsRegex keepNone regexTestMatchAll [cOnly]) ≠ []
          ∨ filterTagsRegex keepNone regexTestMatchAll [cOnly] = [])
      ∧ detOnly ∈ filterTagsCreationDate 1 showTagW coerceNone 1000000000
          (filterTagsRegex keepNone regexTestMatchAll [cOnly]) 0 0)
    ∧ (keepNone detOnly.name = false ∧ regexTestMatchAll detOnly.name = true
      ∧ detOnly ∈ (sortByCreatedAtDesc (getTagDetailsConcurrently 1 showTagW
          (filterTagsRegex keepNone regexTestMatchAll [cOnly]))).drop 0
      ∧ tagIsOlderThan 1000000000 detOnly.created_at 0 = true) :=
  ⟨⟨showTagW_name, Or.inl (by decide), by decide⟩,
    deletion_requires_regexes_recency_and_age 1 showTagW coerceNone 1000000000 0 0
      keepNone regexTestMatchAll [cOnly] detOnly showTagW_name
      (Or.inl (by decide)) (by decide)⟩

/-- Refutation of C4 as stated: on two tags of which only the newer one
matches the keep regex, the implemented pipeline (regex filter first, then
reservation of the most recent candidate) deletes nothing, while the order
claimed by the specification (reserve the most recent of ALL tags first,
then apply the regexes) deletes the older tag. -/
theorem recency_reserved_before_regex_refuted :
    filterTagsCreationDate 1 showTagC4 coerceNone 1000000000
      (filterTagsRegex keepKeepme regexTestMatchAll [cKeepme, cOld]) 0 1 = []
    ∧ specOrderDeletionSet 1 showTagC4 1000000000 [cKeepme, cOld] keepKeepme
        regexTestMatchAll 0 1 = [detOld]
    ∧ ([] : List DetailedTag) ≠ [detOld] := by decide

/-- C4 (amended): the pipeline applies the keep and delete regexes FIRST and
only then sorts the surviving candidates by creation timestamp descending
and reserves the first keepMostRecentN of them; outside the detail-fetch
fallback, the deletion set is the age filter applied to what remains after
dropping the first keepMostRecentN of the sorted regex-filtered candidates,
so the reserved tags are the most recent CANDIDATES, not the most recent of
all listed tags. -/
theorem cleanup_reserves_recent_among_regex_candidates
    (dryRun : Bool) (concurrency : Nat) (listPage : Nat → List CondensedTag)
    (showTag : String → Option DetailedTag)
    (removeTag : Nat → Nat → String → Except String Unit)
    (coerce : String → Option Version) (now : Int) (repository : Repository)
    (repositoryId : Nat) (keepTest deleteTest : String → Bool)
    (olderThanDays : Int) (tagsPerPage keepMostRecentN : Nat)
    (hc : 0 < concurrency)
    (hnf : getTagDetailsConcurrently concurrency showTag (filterTagsRegex keepTest
          deleteTest (getRepositoryTagsConcurrently concurrency listPage repository
            tagsPerPage)) ≠ []
        ∨ filterTagsRegex keepTest deleteTest (getRepositoryTagsConcurrently
            concurrency listPage repository tagsPerPage) = []) :
    (cleanupContainerRepositoryTags dryRun concurrency listPage showTag removeTag
        coerce now repository repositoryId keepTest deleteTest olderThanDays
        tagsPerPage keepMostRecentN).deletionSet
      = ((sortByCreatedAtDesc (getTagDetailsConcurrently concurrency showTag
          (filterTagsRegex keepTest deleteTest (getRepositoryTagsConcurrently
            concurrency listPage repository tagsPerPage)))).drop keepMostRecentN).filter
          (fun t => tagIsOlderThan now t.created_at olderThanDays) := by
  have hcond : ¬((getTagDetailsConcurrently concurrency showTag (filterTagsRegex
      keepTest deleteTest (getRepositoryTagsConcurrently concurrency listPage
        repository tagsPerPage))).length = 0
      ∧ (filterTagsRegex keepTest deleteTest (getRepositoryTagsConcurrently
          concurrency listPage repository tagsPerPage)).length > 0) := by
    rcases hnf with h | h
    · intro hcp
      exact h (List.length_eq_zero.mp hcp.1)
    · intro hcp
      rw [h] at hcp
      simp at hcp
  simp only [cleanupContainerRepositoryTags, filterTagsCreationDate]
  rw [if_neg hcond]

/-- Witness for the amended C4 theorem at a concrete cleanup run. -/
theorem cleanup_reserves_recent_witness :
    (0 < 1
      ∧ (getTagDetailsConcurrently 1 showTagW (filterTagsRegex keepNone
            regexTestMatchAll (getRepositoryTagsConcurrently 1 listPageW repoW 50)) ≠ []
        ∨ filterTagsRegex keepNone regexTestMatchAll (getRepositoryTagsConcurrently
            1 listPageW repoW 50) = []))
    ∧ (cleanupContainerRepositoryTags true 1 listPageW showTagW
        (fun _ _ _ => Except.ok Unit.unit) coerceNone 1000000000 repoW 7 keepNone
        regexTestMatchAll 0 50 0).deletionSet
      = ((sortByCreatedAtDesc (getTagDetailsConcurrently 1 showTagW
          (filterTagsRegex keepNone regexTestMatchAll (getRepositoryTagsConcurrently
            1 listPageW repoW 50)))).drop 0).filter
          (fun t => tagIsOlderThan 1000000000 t.created_at 0) :=
  ⟨⟨by decide, Or.inl (by decide)⟩,
    cleanup_reserves_recent_among_regex_candidates true 1 listPageW showTagW
      (fun _ _ _ => Except.ok Unit.unit) coerceNone 1000000000 repoW 7 keepNone
      regexTestMatchAll 0 50 0 (by decide) (Or.inl (by decide))⟩

/-- Refutation of C6 as stated: two tags incoercible to a version are sorted
by the fallback in DESCENDING name order, so with keepMostRecentN 1 the code
deletes "alpha" where the claimed ascending alphabetical order would delete
"beta". -/
theorem fallback_alphabetical_order_refuted :
    filterTagsCreationDate 1 showTagNone coerceNone 0 [alphaC, betaC] 0 1
      = [fallbackTag 0 alphaC]
    ∧ (sortBySemverSpecOrder coerceNone
        [fallbackTag 0 alphaC, fallbackTag 0 betaC]).drop 1
      = [fallbackTag 0 betaC]
    ∧ fallbackTag 0 alphaC ≠ fallbackTag 0 betaC := by decide

/-- C6 (amended): when zero tag details are retrieved for a nonempty input
the pipeline falls back: the result ignores the age threshold entirely (it
does not occur on the right of the equation), and for a positive
keepMostRecentN the placeholder tags are sorted by the semver comparator —
a permutation of the input ordered so that coercible tags come newest
version first, every coercible tag precedes every incoercible one, and
incoercible tags are in descending (reverse alphabetical) name order — and
everything after the first keepMostRecentN is deleted. -/
theorem fallback_orders_by_semver_and_skips_age
    (concurrency : Nat) (showTag : String → Option DetailedTag)
    (coerce : String → Option Version) (now olderThanDays : Int)
    (keepMostRecentN : Nat) (tags : List CondensedTag)
    (h1 : getTagDetailsConcurrently concurrency showTag tags = [])
    (h2 : tags ≠ []) (h3 : 0 < keepMostRecentN) :
    filterTagsCreationDate concurrency showTag coerce now tags olderThanDays
        keepMostRecentN
      = (sortBySemver coerce (tags.map (fallbackTag now))).drop keepMostRecentN
    ∧ (sortBySemver coerce (tags.map (fallbackTag now))).Perm
        (tags.map (fallbackTag now))
    ∧ (sortBySemver coerce (tags.map (fallbackTag now))).Pairwise (fun a b =>
        match coerce a.name, coerce b.name with
        | some va, some vb => versionLe vb va = true
        | some _, none => True
        | none, some _ => False
        | none, none => localeLe b.name a.name = true) := by
  refine ⟨?_, ?_, ?_⟩
  · simp only [filterTagsCreationDate, h1]
    rw [if_pos ⟨rfl, List.length_pos.mpr h2⟩, if_pos h3]
  · exact List.perm_insertionSort _ _
  · have hs : (sortBySemver coerce (tags.map (fallbackTag now))).Pairwise
        (fun a b => semverLe coerce a b = true) := by
      haveI : IsTotal DetailedTag (fun a b => semverLe coerce a b = true) :=
        ⟨semverLe_total coerce⟩
      haveI : IsTrans DetailedTag (fun a b => semverLe coerce a b = true) :=
        ⟨semverLe_trans coerce⟩
      exact List.sorted_insertionSort _ _
    refine hs.imp ?_
    intro a b hab
    unfold semverLe at hab
    cases ha : coerce a.name <;> cases hb : coerce b.name <;>
      simp only [ha, hb] at hab ⊢ <;>
      first
        | exact hab
        | trivial

/-- Witness for the amended C6 theorem at a concrete fallback run. -/
theorem fallback_orders_by_semver_witness :
    (getTagDetailsConcurrently 1 showTagNone [alphaC] = []
      ∧ [alphaC] ≠ [] ∧ 0 < 1)
    ∧ (filterTagsCreationDate 1 showTagNone coerceNone 0 [alphaC] 7 1
        = (sortBySemver coerceNone ([alphaC].map (fallbackTag 0))).drop 1
      ∧ (sortBySemver coerceNone ([alphaC].map (fallbackTag 0))).Perm
          ([alphaC].map (fallbackTag 0))
      ∧ (sortBySemver coerceNone ([alphaC].map (fallbackTag 0))).Pairwise (fun a b =>
          match coerceNone a.name, coerceNone b.name with
          | some va, some vb => versionLe vb va = true
          | some _, none => True
          | none, some _ => False
          | none, none => localeLe b.name a.name = true)) :=
  ⟨⟨by decide, by decide, by decide⟩,
    fallback_orders_by_semver_and_skips_age 1 showTagNone coerceNone 0 7 1 [alphaC]
      (by decide) (by decide) (by decide)⟩

/-- C8: in every `cleanupContainerRepositoryTags` run, every tag of the
final deletion set carries the name of a tag returned by the tag lister in
that same run (assuming the detail endpoint returns the tag it was asked
for); the deletion set is a subset, by name, of the listed tags. -/
theorem deletion_set_names_subset_of_listed
    (dryRun : Bool) (concurrency : Nat) (listPage : Nat → List CondensedTag)
    (showTag : String → Option DetailedTag)
    (removeTag : Nat → Nat → String → Except String Unit)
    (coerce : String → Option Version) (now : Int) (repository : Repository)
    (repositoryId : Nat) (keepTest deleteTest : String → Bool)
    (olderThanDays : Int) (tagsPerPage keepMostRecentN : Nat)
    (hname : ∀ s d, showTag s = some d → d.name = s) :
    ∀ t ∈ (cleanupContainerRepositoryTags dryRun concurrency listPage showTag
        removeTag coerce now repository repositoryId keepTest deleteTest
        olderThanDays tagsPerPage keepMostRecentN).deletionSet,
      t.name ∈ (getRepositoryTagsConcurrently concurrency listPage repository
        tagsPerPage).map CondensedTag.name := by
  intro t ht
  simp only [cleanupContainerRepositoryTags] at ht
  have h1 : t.name ∈ (filterTagsRegex keepTest deleteTest
      (getRepositoryTagsConcurrently concurrency listPage repository
        tagsPerPage)).map CondensedTag.name :=
    name_mem_of_mem_filterTagsCreationDate concurrency showTag coerce now
      olderThanDays keepMostRecentN _ t hname ht
  obtain ⟨c, hc, hnm⟩ := List.mem_map.mp h1
  exact List.mem_map.mpr ⟨c, ((mem_filterTagsRegex _ _ _ _).mp hc).1, hnm⟩

/-- Witness for the deletion-set-subset theorem at a concrete cleanup run
in which one listed tag is deleted. -/
theorem deletion_set_names_subset_witness :
    (∀ s d, showTagW s = some d → d.name = s)
    ∧ (∀ t ∈ (cleanupContainerRepositoryTags true 1 listPageW showTagW
        (fun _ _ _ => Except.error "rejected") coerceNone 1000000000 repoW 7
        keepNone regexTestMatchAll 0 50 0).deletionSet,
      t.name ∈ (getRepositoryTagsConcurrently 1 listPageW repoW 50).map
        CondensedTag.name) :=
  ⟨showTagW_name,
    deletion_set_names_subset_of_listed true 1 listPageW showTagW
      (fun _ _ _ => Except.error "rejected") coerceNone 1000000000 repoW 7
      keepNone regexTestMatchAll 0 50 0 showTagW_name⟩

/-- Refutation of C9 as stated: the `list project` command, run with both
environment variables absent, issues a network request and never reaches a
fatal configuration exit, because its action does not call
`checkEnvironment`. -/
theorem list_project_checks_nothing_before_network :
    (runCliCommand CliCommand.listProject none none).any isNetworkCall = true
    ∧ (runCliCommand CliCommand.listProject none none).any isFatalExit = false := by
  decide

/-- C9 (amended): for the `list all` and `clean` commands, a missing (absent
or empty) registry host or API token environment variable makes the program
terminate with a fatal configuration exit before any network call; the
`list project` and `list group` commands perform no such check. -/
theorem env_check_fatal_for_list_all_and_clean
    (gitlabHost gitlabToken : Option String)
    (h : envMissing gitlabHost = true ∨ envMissing gitlabToken = true) :
    ((runCliCommand CliCommand.listAll gitlabHost gitlabToken).any isNetworkCall = false
      ∧ (runCliCommand CliCommand.listAll gitlabHost gitlabToken).any isFatalExit = true)
    ∧ ((runCliCommand CliCommand.clean gitlabHost gitlabToken).any isNetworkCall = false
      ∧ (runCliCommand CliCommand.clean gitlabHost gitlabToken).any isFatalExit = true) := by
  have hcheck : ∃ c, checkEnvironment gitlabHost gitlabToken = some c := by
    unfold checkEnvironment
    rcases h with h | h
    · exact ⟨1, by rw [if_pos h]⟩
    · by_cases hh : envMissing gitlabHost = true
      · exact ⟨1, by rw [if_pos hh]⟩
      · exact ⟨2, by rw [if_neg hh, if_pos h]⟩
  obtain ⟨c, hc⟩ := hcheck
  simp [runCliCommand, actionListAllRepositories, actionCleanRepository, hc,
    isNetworkCall, isFatalExit]

/-- Witness for the amended C9 theorem: with the host variable absent and a
token present, both checked commands exit fatally without a network call. -/
theorem env_check_fatal_witness :
    (envMissing none = true ∨ envMissing (some "token") = true)
    ∧ (((runCliCommand CliCommand.listAll none (some "token")).any isNetworkCall = false
      ∧ (runCliCommand CliCommand.listAll none (some "token")).any isFatalExit = true)
    ∧ ((runCliCommand CliCommand.clean none (some "token")).any isNetworkCall = false
      ∧ (runCliCommand CliCommand.clean none (some "token")).any isFatalExit = true)) :=
  ⟨Or.inl (by decide),
    env_check_fatal_for_list_all_and_clean none (some "token") (Or.inl (by decide))⟩
